import Mathlib

/-!
Shallow embedding of the reminder bot (`src/bot.py`) and verification of the
frozen claims about it.  Time instants (`datetime`) and durations (`timedelta`)
are modelled as integer seconds; the per-chat registry (`chat_data["jobs"]`)
is an insertion-ordered association list, matching Python dict semantics.
-/

/-- ASCII lowercasing of one character, the fragment of Python's `str.lower`
exercised by the program (all case-insensitive comparisons in the source are
against ASCII strings). -/
def pyLowerChar (c : Char) : Char :=
  if 65 ≤ c.toNat ∧ c.toNat ≤ 90 then Char.ofNat (c.toNat + 32) else c

/-- Python `s.lower()` restricted to ASCII letters. -/
def pyLower (s : String) : String := ⟨s.data.map pyLowerChar⟩

/-- Whether a character matches the character class `[smhd]` of `_DURATION_RE`
under `re.IGNORECASE`. -/
def isUnitChar (c : Char) : Bool := pyLowerChar c ∈ (['s', 'm', 'h', 'd'] : List Char)

/-- Python `int` applied to a non-empty string of decimal digits. -/
def digitsToNat (cs : List Char) : Nat := cs.foldl (fun a c => a * 10 + (c.toNat - 48)) 0

/-- Left-to-right non-overlapping scan of `_DURATION_RE.findall` for the
pattern `(\d+)\s*([smhd])` (case-insensitive): at a digit the engine takes the
maximal digit run, optional whitespace, then requires a unit character; on
failure it restarts one character further.  `fuel` is initialised with the
length of the text, which bounds the recursion. -/
def scanDuration : Nat → List Char → List (String × Char)
  | 0, _ => []
  | _, [] => []
  | fuel + 1, c :: rest =>
    if c.isDigit then
      let digs := c :: rest.takeWhile Char.isDigit
      let afterDigits := rest.dropWhile Char.isDigit
      let afterWs := afterDigits.dropWhile Char.isWhitespace
      match afterWs with
      | u :: rest2 =>
        if isUnitChar u then (⟨digs⟩, u) :: scanDuration fuel rest2
        else scanDuration fuel rest
      | [] => []
    else scanDuration fuel rest

/-- `_DURATION_RE.findall(spec)`: the list of `(digits, unit)` matches. -/
def durationMatches (s : String) : List (String × Char) := scanDuration s.data.length s.data

/-- Seconds contributed per unit by the `match unit.lower()` dispatch of
`parse_duration` (an unrecognised unit adds nothing — unreachable, since the
regex only produces `[smhd]`). -/
def unitSeconds (u : Char) : Nat :=
  match pyLowerChar u with
  | 's' => 1
  | 'm' => 60
  | 'h' => 3600
  | 'd' => 86400
  | _ => 0

/-- `parse_duration` from `src/bot.py`: `None` when no `(int, unit)` pair
matches or the summed seconds are `<= 0`, otherwise the total as a
`timedelta` (here: seconds). -/
def parse_duration (s : String) : Option Int :=
  let ms := durationMatches s
  if ms = [] then none
  else
    let total := ms.foldl (fun acc p => acc + digitsToNat p.1.data * unitSeconds p.2) 0
    if total ≤ 0 then none else some (total : Int)

/-- `humanize_delta` from `src/bot.py`: repeated `divmod` by 86400/3600/60/1,
collecting `f"{value}{suffix}"` for non-zero quotients, `"0s"` when all are
zero.  Python `divmod` floors, hence `Int.fdiv`/`Int.fmod`. -/
def humanize_delta (delta : Int) : String :=
  let step : List String × Int → Int × String → List String × Int := fun acc p =>
    let v := Int.fdiv acc.2 p.1
    let r := Int.fmod acc.2 p.1
    (if v ≠ 0 then acc.1 ++ [toString v ++ p.2] else acc.1, r)
  let res := [((86400 : Int), "d"), (3600, "h"), (60, "m"), (1, "s")].foldl step ([], delta)
  if res.1 = [] then "0s" else " ".intercalate res.1

/-- A naive `datetime` instance as produced by `datetime.strptime` with the
formats in `_DATETIME_FORMATS` (second and microsecond are always zero). -/
structure PyDateTime where
  year : Nat
  month : Nat
  day : Nat
  hour : Nat
  minute : Nat
deriving DecidableEq, Repr

/-- Gregorian leap-year test used by `datetime`'s calendar. -/
def isLeapYear (y : Nat) : Bool := y % 4 = 0 && (y % 100 != 0 || y % 400 = 0)

/-- Length of a month in the proleptic Gregorian calendar. -/
def daysInMonth (y m : Nat) : Nat :=
  if m = 2 then (if isLeapYear y then 29 else 28)
  else if m = 4 ∨ m = 6 ∨ m = 9 ∨ m = 11 then 30
  else 31

/-- Split off the maximal leading run of decimal digits. -/
def splitDigitRun (cs : List Char) : List Char × List Char :=
  (cs.takeWhile Char.isDigit, cs.dropWhile Char.isDigit)

/-- Consume the literal `-` of the strptime formats. -/
def consumeDash : List Char → Option (List Char)
  | '-' :: r => some r
  | _ => none

/-- Consume the literal `:` of the strptime formats. -/
def consumeColon : List Char → Option (List Char)
  | ':' :: r => some r
  | _ => none

/-- Consume the literal `T` of `"%Y-%m-%dT%H:%M"`; strptime compiles its
format regex with `IGNORECASE`, so `t` is accepted too. -/
def consumeT : List Char → Option (List Char)
  | c :: r => if c = 'T' ∨ c = 't' then some r else none
  | _ => none

/-- Consume the whitespace of `"%Y-%m-%d %H:%M"`: strptime turns a literal
space in the format into `\s+`. -/
def consumeWs : List Char → Option (List Char)
  | c :: r => if c.isWhitespace then some (r.dropWhile Char.isWhitespace) else none
  | _ => none

/-- `datetime.strptime(s, "%Y-%m-%d<sep>%H:%M")`: the directive regexes force
year = 4 digits, month/day/hour/minute = 1–2 digits with the ranges checked
below, the whole string must be consumed, and the `datetime` constructor then
validates the day against the month length and `year >= 1`. -/
def strptimeYmdHM (sep : List Char → Option (List Char)) (s : String) : Option PyDateTime :=
  let (ys, r1) := splitDigitRun s.data
  if ys.length ≠ 4 then none else
  match consumeDash r1 with
  | none => none
  | some r2 =>
    let (mos, r3) := splitDigitRun r2
    if mos.length = 0 ∨ 2 < mos.length then none else
    match consumeDash r3 with
    | none => none
    | some r4 =>
      let (ds, r5) := splitDigitRun r4
      if ds.length = 0 ∨ 2 < ds.length then none else
      match sep r5 with
      | none => none
      | some r6 =>
        let (hs, r7) := splitDigitRun r6
        if hs.length = 0 ∨ 2 < hs.length then none else
        match consumeColon r7 with
        | none => none
        | some r8 =>
          let (mis, r9) := splitDigitRun r8
          if mis.length = 0 ∨ 2 < mis.length then none else
          if r9 ≠ [] then none else
          let y := digitsToNat ys
          let mo := digitsToNat mos
          let d := digitsToNat ds
          let h := digitsToNat hs
          let mi := digitsToNat mis
          if 1 ≤ mo ∧ mo ≤ 12 ∧ 1 ≤ d ∧ d ≤ 31 ∧ h ≤ 23 ∧ mi ≤ 59
              ∧ 1 ≤ y ∧ d ≤ daysInMonth y mo
          then some ⟨y, mo, d, h, mi⟩ else none

/-- Try one candidate string against both entries of `_DATETIME_FORMATS`, in
their tuple order. -/
def strptimeAny (s : String) : Option PyDateTime :=
  match strptimeYmdHM consumeWs s with
  | some dt => some dt
  | none => strptimeYmdHM consumeT s

/-- `parse_datetime_spec` from `src/bot.py`: first `tokens[0]` alone, then
`f"{tokens[0]} {tokens[1]}"`, each against both formats; returns the parsed
datetime together with the number of tokens consumed. -/
def parse_datetime_spec (tokens : List String) : Option (PyDateTime × Nat) :=
  match tokens with
  | [] => none
  | t0 :: rest =>
    match strptimeAny t0 with
    | some dt => some (dt, 1)
    | none =>
      match rest with
      | t1 :: _ =>
        match strptimeAny (t0 ++ " " ++ t1) with
        | some dt => some (dt, 2)
        | none => none
      | [] => none

/-- Days in the years `1 .. y-1` of the proleptic Gregorian calendar
(`datetime.toordinal`'s year part). -/
def daysBeforeYear (y : Nat) : Nat :=
  let n := y - 1
  n * 365 + n / 4 - n / 100 + n / 400

/-- Days in the months `1 .. m-1` of year `y`. -/
def daysBeforeMonth (y m : Nat) : Nat :=
  (List.range (m - 1)).foldl (fun acc i => acc + daysInMonth y (i + 1)) 0

/-- A `PyDateTime` as integer seconds on the proleptic Gregorian time line;
this is the model of a `datetime` value, making `+`, `-` and `<=` on
`datetime`s integer operations. -/
def toEpoch (dt : PyDateTime) : Int :=
  ((daysBeforeYear dt.year + daysBeforeMonth dt.year dt.month + (dt.day - 1)) * 86400
    + dt.hour * 3600 + dt.minute * 60 : Nat)

/-- Python `s.lstrip("@")`. -/
def pyLstripAt (s : String) : String := ⟨s.data.dropWhile (· = '@')⟩

/-- Python `s.strip()` (whitespace at both ends). -/
def pyStrip (s : String) : String :=
  ⟨((s.data.dropWhile Char.isWhitespace).reverse.dropWhile Char.isWhitespace).reverse⟩

/-- `normalize_target_label` from `src/bot.py`; `None` and `""` are both
falsy for the leading `if not label` check. -/
def normalize_target_label (label : Option String) : Option String × Bool :=
  match label with
  | none => (none, false)
  | some l =>
    if l = "" then (none, false)
    else
      let stripped := pyStrip (pyLstripAt l)
      if pyLower stripped = "all" ∨ pyLower stripped = "всем" then (some "всех", true)
      else (some l, false)

/-- Result of the `/remind` argument interpretation in `src/bot.py`; each
error constructor corresponds to one `reply_text` early return. -/
inductive RemindResult where
  | needTime
  | usageNoArgs
  | usageNeedTarget
  | badTime
  | pastDateTime
  | missingRepeat
  | badRepeat
  | ok (target : Option String) (is_all : Bool) (due_at : Int) (delay : Int)
      (repIv : Option Int) (text : String)
deriving DecidableEq, Repr

/-- The target-disambiguation step of `remind` for a non-reply invocation
with non-empty `args` (lines 262–279): if `args[0]` parses as a duration or
`args` starts an absolute datetime, no target token is consumed; otherwise
`args[0]` becomes the explicit target label, requiring a second token.
`none` is the `len(args) < 2` usage error. -/
def targetSplit (args : List String) : Option (Option String × List String) :=
  match args with
  | [] => none
  | a :: rest =>
    if (parse_duration a).isSome ∨ (parse_datetime_spec (a :: rest)).isSome then
      some (none, a :: rest)
    else
      match rest with
      | [] => none
      | b :: rest2 => some (some a, b :: rest2)

/-- Outcome of the time-parsing step of `remind` (lines 281–298). -/
inductive TimeParse where
  | bad
  | past
  | ok (due_at : Int) (delay : Int) (consumed : Nat)
deriving DecidableEq, Repr

/-- Time parsing of `remind`: first a relative duration on the first time
token, else the absolute-datetime parse, rejected when not strictly after
`now`. -/
def parseTimeSpec (now : Int) (time_args : List String) : TimeParse :=
  let delay := match time_args with
    | [] => none
    | t :: _ => parse_duration t
  match delay with
  | some d => .ok (now + d) d 1
  | none =>
    match parse_datetime_spec time_args with
    | none => .bad
    | some (dt, consumed) =>
      let due := toEpoch dt
      if due ≤ now then .past else .ok due (due - now) consumed

/-- `_REPEAT_KEYWORDS` from `src/bot.py`. -/
def repeatKeywords : List String := ["every", "repeat", "каждый", "каждые"]

/-- Outcome of the repeat-clause step of `remind` (lines 300–309). -/
inductive RepeatParse where
  | missing
  | bad
  | ok (repIv : Option Int) (rest : List String)
deriving DecidableEq, Repr

/-- Repeat clause of `remind`: a leading repeat keyword must be followed by a
parsable duration; both tokens are consumed. -/
def parseRepeatClause (remaining : List String) : RepeatParse :=
  match remaining with
  | [] => .ok none []
  | r0 :: rest =>
    if pyLower r0 ∈ repeatKeywords then
      match rest with
      | [] => .missing
      | r1 :: _ =>
        match parse_duration r1 with
        | none => .bad
        | some iv => .ok (some iv) rest.tail
    else .ok none (r0 :: rest)

/-- `" ".join(remaining).strip() or "Напоминание!"` (line 311). -/
def joinText (remaining : List String) : String :=
  let j := pyStrip (" ".intercalate remaining)
  if j = "" then "Напоминание!" else j

/-- The tail of `remind` shared by all invocation shapes: time parsing,
repeat clause, free text, target normalization (lines 281–312). -/
def remindAfterTarget (target_label : Option String) (time_args : List String)
    (now : Int) : RemindResult :=
  match parseTimeSpec now time_args with
  | .bad => .badTime
  | .past => .pastDateTime
  | .ok due delay consumed =>
    match parseRepeatClause (time_args.drop consumed) with
    | .missing => .missingRepeat
    | .bad => .badRepeat
    | .ok repIv remaining =>
      let nt := normalize_target_label target_label
      .ok nt.1 nt.2 due delay repIv (joinText remaining)

/-- The argument interpretation of `remind` (lines 242–312): a reply targets
the replied-to author with all tokens as time+text; otherwise the target is
disambiguated by `targetSplit`. -/
def remindParse (isReply : Bool) (replyLabel : String) (args : List String)
    (now : Int) : RemindResult :=
  if isReply then
    match args with
    | [] => .needTime
    | _ => remindAfterTarget (some replyLabel) args now
  else
    match args with
    | [] => .usageNoArgs
    | a :: rest =>
      match targetSplit (a :: rest) with
      | none => .usageNeedTarget
      | some p => remindAfterTarget p.1 p.2 now

/-- The per-chat registry record stored as `chat_jobs[job_id]` (lines
351–357); the job handle is identified by the job name, which equals the
registry key. -/
structure JobRecord where
  target : Option String
  text : String
  due_at : Int
  repIv : Option Int
deriving DecidableEq, Repr

/-- The `job_data` dict handed to the job queue (lines 325–332); this is the
dict `send_reminder` receives as `job.data`, distinct from the `JobRecord`. -/
structure JobData where
  chat_id : Int
  mention : Option String
  text : String
  reply_to : Option Nat
  due_at : Int
  repIv : Option Int
deriving DecidableEq, Repr

/-- Python dict assignment `d[k] = v`: overwrite in place when the key
exists, else append (insertion order preserved). -/
def dictInsert (k : String) (v : α) (d : List (String × α)) : List (String × α) :=
  if d.any (fun p => p.1 = k) then d.map (fun p => if p.1 = k then (k, v) else p)
  else d ++ [(k, v)]

/-- `f"{chat_id}-{int(time.time() * 1000)}"` (line 320). -/
def mkJobId (chat_id : Int) (ms : Nat) : String := s!"{chat_id}-{ms}"

/-- The registry slice of `remind` (lines 319–320 and 350–357): allocate the
wall-clock id and store the record in the chat's `jobs` dict. -/
def createReminder (chat_id : Int) (ms : Nat) (rec : JobRecord)
    (jobs : List (String × JobRecord)) : String × List (String × JobRecord) :=
  let job_id := mkJobId chat_id ms
  (job_id, dictInsert job_id rec jobs)

/-- State touched by the fire handler: the chat's registry dict and the
scheduler's armed jobs with their mutable `job.data` dicts. -/
structure BotState where
  jobs : List (String × JobRecord)
  armed : List (String × JobData)
deriving DecidableEq, Repr

/-- `send_reminder` from `src/bot.py` (lines 114–143), firing the job named
`jobName` at instant `now`.  `deliverOk` tells whether the awaited
`context.bot.send_message` call succeeds; when it raises, the coroutine
aborts before line 138 and no state changes.  On a successful delivery: a
truthy `repeat_interval` makes line 140 rebind `data["due_at"]` inside the
job's own data dict (the registry record is not touched), otherwise line 143
pops the registry entry. -/
def send_reminder (deliverOk : Bool) (now : Int) (jobName : String)
    (st : BotState) : BotState :=
  match List.lookup jobName st.armed with
  | none => st
  | some jd =>
    if deliverOk = false then st
    else
      match jd.repIv with
      | some iv =>
        if iv ≠ 0 then
          { st with armed := st.armed.map (fun p =>
              if p.1 = jobName then (p.1, { jd with due_at := now + iv }) else p) }
        else { st with jobs := st.jobs.filter (fun p => p.1 ≠ jobName) }
      | none => { st with jobs := st.jobs.filter (fun p => p.1 ≠ jobName) }

/-- Result of a `/cancel` invocation; each constructor is one of the reply
messages of `cancel` in `src/bot.py`. -/
inductive CancelOutcome where
  | noReminders
  | promptForId (ids : List String)
  | cancelledAll
  | notFound
  | cancelled (id : String) (target_display : String)
deriving DecidableEq, Repr

/-- Python `x or dflt` for an optional string (`None` and `""` falsy). -/
def pyOrStr (o : Option String) (dflt : String) : String :=
  match o with
  | some s => if s = "" then dflt else s
  | none => dflt

/-- Shared tail of `cancel` once a `job_id` has been selected (lines
443–475): the `all` keyword clears the whole dict after disarming every job;
otherwise `chat_jobs.pop(job_id, None)` and, if found, a disarm and a
confirmation naming the id.  The last component lists the job ids on which
`schedule_removal()` was called. -/
def cancelWithId (job_id : String) (jobs : List (String × JobRecord)) :
    List (String × JobRecord) × CancelOutcome × List String :=
  if pyLower job_id = "all" then
    match jobs with
    | [] => (jobs, .noReminders, [])
    | _ => ([], .cancelledAll, jobs.map Prod.fst)
  else
    match List.lookup job_id jobs with
    | none => (jobs, .notFound, [])
    | some info =>
      (jobs.filter (fun p => p.1 ≠ job_id),
        .cancelled job_id (pyOrStr info.target "без адресата"), [job_id])

/-- `cancel` from `src/bot.py` (lines 413–475): with no argument, an empty
registry reports "no reminders", a singleton selects its only id, anything
larger prompts for an id; with an argument that argument is the id. -/
def cancel (args : List String) (jobs : List (String × JobRecord)) :
    List (String × JobRecord) × CancelOutcome × List String :=
  match args with
  | [] =>
    match jobs with
    | [] => (jobs, .noReminders, [])
    | [(k, _)] => cancelWithId k jobs
    | _ => (jobs, .promptForId (jobs.map Prod.fst), [])
  | id :: _ => cancelWithId id jobs

/-- Result of `/list`. -/
inductive ListOutcome where
  | noReminders
  | lines (ls : List String)
deriving DecidableEq, Repr

/-- One line of the `/list` output (lines 391–400): the remaining time is
`max(data["due_at"] - now, timedelta(0))`, then humanized. -/
def reminderLine (now : Int) (job_id : String) (r : JobRecord) : String :=
  let eta := max (r.due_at - now) 0
  let target_display := pyOrStr r.target "без адресата"
  let repeat_text := match r.repIv with
    | some iv => if iv ≠ 0 then " — повтор каждые " ++ humanize_delta iv else ""
    | none => ""
  let h := humanize_delta eta
  s!"{job_id}: {target_display} — через {h}{repeat_text} — " ++ r.text

/-- `list_reminders` from `src/bot.py` (lines 379–404). -/
def list_reminders (now : Int) (jobs : List (String × JobRecord)) : ListOutcome :=
  match jobs with
  | [] => .noReminders
  | _ => .lines (jobs.map (fun p => reminderLine now p.1 p.2))

/-- The arithmetic sum over matched `(integer, unit)` pairs, as the spec words
it: each pair contributes its value times its unit's seconds. -/
def durationTotal (ms : List (String × Char)) : Nat :=
  (ms.map (fun p => digitsToNat p.1.data * unitSeconds p.2)).sum

/-- The canonical rendering stated by the spec (§4.1): the non-zero components
among days, hours, minutes, seconds, largest to smallest, space-joined; a
zero duration renders as `"0s"`. -/
def humanizeCanonical (n : Nat) : String :=
  let comps := [(n / 86400, "d"), (n % 86400 / 3600, "h"), (n % 3600 / 60, "m"), (n % 60, "s")]
  let parts := comps.filterMap (fun p => if p.1 = 0 then none else some (toString p.1 ++ p.2))
  if parts = [] then "0s" else " ".intercalate parts

/-- A `/list` line as the claim words it: identical to `reminderLine` except
that the remaining time is explicitly the stored due time minus the current
time clamped below at zero, rendered canonically as a non-negative value. -/
def reminderLineSpec (now : Int) (job_id : String) (r : JobRecord) : String :=
  let eta := max (r.due_at - now) 0
  let target_display := pyOrStr r.target "без адресата"
  let repeat_text := match r.repIv with
    | some iv => if iv ≠ 0 then " — повтор каждые " ++ humanize_delta iv else ""
    | none => ""
  let h := humanizeCanonical eta.toNat
  s!"{job_id}: {target_display} — через {h}{repeat_text} — " ++ r.text

/-! ## Helper lemmas -/

theorem toDigitsCore_append (b : Nat) :
    ∀ (f n : Nat) (l : List Char),
      Nat.toDigitsCore b f n l = Nat.toDigitsCore b f n [] ++ l := by
  intro f
  induction f with
  | zero => intro n l; simp [Nat.toDigitsCore]
  | succ f ih =>
    intro n l
    simp only [Nat.toDigitsCore]
    by_cases h : n / b = 0
    · simp [h]
    · simp only [h, if_false]
      rw [ih (n / b) (Nat.digitChar (n % b) :: l), ih (n / b) [Nat.digitChar (n % b)]]
      simp

theorem toDigitsCore_eq_digits :
    ∀ (n : Nat), 0 < n → ∀ f, n < f →
      Nat.toDigitsCore 10 f n [] = ((Nat.digits 10 n).map Nat.digitChar).reverse := by
  intro n
  induction n using Nat.strong_induction_on with
  | _ n ih =>
    intro h0 f hf
    cases f with
    | zero => omega
    | succ f =>
      simp only [Nat.toDigitsCore]
      rw [Nat.digits_def' (by norm_num : (1 : Nat) < 10) h0]
      by_cases h : n / 10 = 0
      · simp [h]
      · simp only [h, if_false]
        rw [toDigitsCore_append]
        have hlt : n / 10 < n := Nat.div_lt_self h0 (by norm_num)
        rw [ih (n / 10) hlt (Nat.pos_of_ne_zero h) f (by omega)]
        simp

theorem repr_data_eq (n : Nat) (h0 : 0 < n) :
    (Nat.repr n).data = ((Nat.digits 10 n).map Nat.digitChar).reverse := by
  show (Nat.toDigits 10 n).asString.data = _
  rw [Nat.toDigits, toDigitsCore_eq_digits n h0 (n + 1) (Nat.lt_succ_self n)]
  rfl

theorem digitChar_inj_lt : ∀ a < 10, ∀ b < 10, Nat.digitChar a = Nat.digitChar b → a = b := by
  decide

theorem map_digitChar_inj : ∀ (l1 l2 : List Nat), (∀ x ∈ l1, x < 10) → (∀ x ∈ l2, x < 10) →
    l1.map Nat.digitChar = l2.map Nat.digitChar → l1 = l2 := by
  intro l1
  induction l1 with
  | nil => intro l2 _ _ h; cases l2 <;> simp_all
  | cons a t ih =>
    intro l2 h1 h2 h
    cases l2 with
    | nil => simp_all
    | cons b t2 =>
      simp only [List.map_cons, List.cons.injEq] at h
      have hab := digitChar_inj_lt a (h1 a (by simp)) b (h2 b (by simp)) h.1
      subst hab
      rw [ih t2 (fun x hx => h1 x (by simp [hx])) (fun x hx => h2 x (by simp [hx])) h.2]

theorem nat_repr_data_inj {m n : Nat} (h : (Nat.repr m).data = (Nat.repr n).data) : m = n := by
  rcases Nat.eq_zero_or_pos m with hm | hm <;> rcases Nat.eq_zero_or_pos n with hn | hn
  · omega
  · exfalso
    subst hm
    rw [repr_data_eq n hn] at h
    have h0 : (Nat.repr 0).data = ['0'] := rfl
    rw [h0] at h
    have h' : (Nat.digits 10 n).map Nat.digitChar = ['0'] := by
      simpa using congrArg List.reverse h.symm
    rcases hd : Nat.digits 10 n with _ | ⟨d, t⟩
    · rw [hd] at h'; simp at h'
    · rw [hd] at h'
      simp only [List.map_cons, List.cons.injEq] at h'
      have hd10 : d < 10 := Nat.digits_lt_base (by norm_num) (by rw [hd]; simp)
      have hd0 : d = 0 := by
        have : Nat.digitChar d = Nat.digitChar 0 := h'.1
        exact digitChar_inj_lt d hd10 0 (by norm_num) this
      have ht : (t.map Nat.digitChar) = [] := h'.2
      have ht' : t = [] := by cases t <;> simp_all
      have : n = Nat.ofDigits 10 (Nat.digits 10 n) := (Nat.ofDigits_digits 10 n).symm
      rw [hd, hd0, ht'] at this
      simp [Nat.ofDigits] at this
      omega
  · exfalso
    subst hn
    rw [repr_data_eq m hm] at h
    have h0 : (Nat.repr 0).data = ['0'] := rfl
    rw [h0] at h
    have h' : (Nat.digits 10 m).map Nat.digitChar = ['0'] := by
      simpa using congrArg List.reverse h
    rcases hd : Nat.digits 10 m with _ | ⟨d, t⟩
    · rw [hd] at h'; simp at h'
    · rw [hd] at h'
      simp only [List.map_cons, List.cons.injEq] at h'
      have hd10 : d < 10 := Nat.digits_lt_base (by norm_num) (by rw [hd]; simp)
      have hd0 : d = 0 := by
        have : Nat.digitChar d = Nat.digitChar 0 := h'.1
        exact digitChar_inj_lt d hd10 0 (by norm_num) this
      have ht' : t = [] := by
        have := h'.2
        cases t <;> simp_all
      have : m = Nat.ofDigits 10 (Nat.digits 10 m) := (Nat.ofDigits_digits 10 m).symm
      rw [hd, hd0, ht'] at this
      simp [Nat.ofDigits] at this
      omega
  · rw [repr_data_eq m hm, repr_data_eq n hn, List.reverse_inj] at h
    have hdig := map_digitChar_inj (Nat.digits 10 m) (Nat.digits 10 n)
      (fun x hx => Nat.digits_lt_base (by norm_num) hx)
      (fun x hx => Nat.digits_lt_base (by norm_num) hx) h
    calc m = Nat.ofDigits 10 (Nat.digits 10 m) := (Nat.ofDigits_digits 10 m).symm
    _ = Nat.ofDigits 10 (Nat.digits 10 n) := by rw [hdig]
    _ = n := Nat.ofDigits_digits 10 n

theorem mkJobId_data (c : Int) (t : Nat) :
    (mkJobId c t).data = (toString c).data ++ '-' :: (Nat.repr t).data := by
  have he : mkJobId c t = (((("" : String) ++ toString c) ++ "-") ++ toString t) ++ "" := rfl
  have ht : toString t = Nat.repr t := rfl
  rw [he, ht]
  simp [String.data_append]

theorem mkJobId_inj_ms (c : Int) {t1 t2 : Nat} (h : mkJobId c t1 = mkJobId c t2) : t1 = t2 := by
  have hd := congrArg String.data h
  rw [mkJobId_data, mkJobId_data] at hd
  have h2 := List.append_cancel_left hd
  simp only [List.cons.injEq, true_and] at h2
  exact nat_repr_data_inj h2

theorem mkJobId_lower_ne_all (c : Int) (t : Nat) : pyLower (mkJobId c t) ≠ "all" := by
  intro h
  have hd := congrArg String.data h
  have hm : '-' ∈ (pyLower (mkJobId c t)).data := by
    show '-' ∈ (mkJobId c t).data.map pyLowerChar
    refine List.mem_map.mpr ⟨'-', ?_, by decide⟩
    rw [mkJobId_data]
    exact List.mem_append_right _ (List.mem_cons_self _ _)
  rw [hd] at hm
  have he : ("all" : String).data = ['a', 'l', 'l'] := rfl
  rw [he] at hm
  simp at hm

theorem lookup_map_replace (k : String) (v : α) :
    ∀ d : List (String × α), d.any (fun p => decide (p.1 = k)) = true →
      List.lookup k (d.map (fun p => if p.1 = k then (k, v) else p)) = some v := by
  intro d
  induction d with
  | nil => intro h; simp at h
  | cons a t ih =>
    obtain ⟨a1, a2⟩ := a
    intro h
    by_cases ha : a1 = k
    · have hh : (if (a1, a2).1 = k then (k, v) else (a1, a2)) = (k, v) := by simp [ha]
      rw [List.map_cons, hh, List.lookup_cons, beq_self_eq_true]
    · have hh : (if (a1, a2).1 = k then (k, v) else (a1, a2)) = (a1, a2) := by simp [ha]
      have ht : t.any (fun p => decide (p.1 = k)) = true := by
        simp only [List.any_cons, Bool.or_eq_true, decide_eq_true_eq] at h
        rcases h with h | h
        · exact absurd h ha
        · exact h
      have hk : (k == a1) = false := by simp [Ne.symm ha]
      rw [List.map_cons, hh, List.lookup_cons, hk]
      exact ih ht

theorem lookup_map_replace_other (k k' : String) (v : α) (h : k' ≠ k) :
    ∀ d : List (String × α),
      List.lookup k' (d.map (fun p => if p.1 = k then (k, v) else p)) = List.lookup k' d := by
  intro d
  induction d with
  | nil => simp
  | cons a t ih =>
    obtain ⟨a1, a2⟩ := a
    by_cases ha : a1 = k
    · have hh : (if (a1, a2).1 = k then (k, v) else (a1, a2)) = (k, v) := by simp [ha]
      have hk : (k' == k) = false := by simp [h]
      have hk2 : (k' == a1) = false := by simp [ha, h]
      rw [List.map_cons, hh, List.lookup_cons, hk, List.lookup_cons, hk2]
      exact ih
    · have hh : (if (a1, a2).1 = k then (k, v) else (a1, a2)) = (a1, a2) := by simp [ha]
      rw [List.map_cons, hh, List.lookup_cons, List.lookup_cons]
      rcases hk : (k' == a1) with _ | _
      · exact ih
      · rfl

theorem lookup_append_single (k k' : String) (v : α) (h : k' ≠ k) :
    ∀ d : List (String × α), List.lookup k' (d ++ [(k, v)]) = List.lookup k' d := by
  intro d
  induction d with
  | nil =>
    have hk : (k' == k) = false := by simp [h]
    simp only [List.nil_append, List.lookup_cons, hk, List.lookup_nil]
  | cons a t ih =>
    obtain ⟨a1, a2⟩ := a
    rw [List.cons_append, List.lookup_cons, List.lookup_cons]
    rcases hk : (k' == a1) with _ | _
    · exact ih
    · rfl

theorem lookup_not_found (k : String) :
    ∀ d : List (String × α), d.any (fun p => decide (p.1 = k)) = false →
      List.lookup k d = none := by
  intro d
  induction d with
  | nil => intro _; rfl
  | cons a t ih =>
    obtain ⟨a1, a2⟩ := a
    intro h
    simp only [List.any_cons, Bool.or_eq_false_iff, decide_eq_false_iff_not] at h
    have hk : (k == a1) = false := by simp [Ne.symm h.1]
    rw [List.lookup_cons, hk]
    exact ih (by simpa using h.2)

theorem lookup_append_self_not_in (k : String) (v : α) :
    ∀ d : List (String × α), d.any (fun p => decide (p.1 = k)) = false →
      List.lookup k (d ++ [(k, v)]) = some v := by
  intro d
  induction d with
  | nil => intro _; rw [List.nil_append, List.lookup_cons, beq_self_eq_true]
  | cons a t ih =>
    obtain ⟨a1, a2⟩ := a
    intro h
    simp only [List.any_cons, Bool.or_eq_false_iff, decide_eq_false_iff_not] at h
    have hk : (k == a1) = false := by simp [Ne.symm h.1]
    rw [List.cons_append, List.lookup_cons, hk]
    exact ih (by simpa using h.2)

theorem lookup_dictInsert_self (k : String) (v : α) (d : List (String × α)) :
    List.lookup k (dictInsert k v d) = some v := by
  unfold dictInsert
  by_cases h : d.any (fun p => decide (p.1 = k)) = true
  · rw [if_pos h]
    exact lookup_map_replace k v d h
  · rw [if_neg h]
    exact lookup_append_self_not_in k v d (Bool.eq_false_iff.mpr h)

theorem lookup_dictInsert_other (k k' : String) (v : α) (h : k' ≠ k) (d : List (String × α)) :
    List.lookup k' (dictInsert k v d) = List.lookup k' d := by
  unfold dictInsert
  by_cases hh : d.any (fun p => decide (p.1 = k)) = true
  · rw [if_pos hh]
    exact lookup_map_replace_other k k' v h d
  · rw [if_neg hh]
    exact lookup_append_single k k' v h d

theorem humanize_delta_natCast (n : Nat) : humanize_delta (n : Int) = humanizeCanonical n := by
  have tcast : ∀ m : Nat, toString ((m : Nat) : Int) = toString m := fun m => rfl
  have m1 : n % 86400 % 3600 = n % 3600 := Nat.mod_mod_of_dvd n (by norm_num)
  have m2 : n % 3600 % 60 = n % 60 := Nat.mod_mod_of_dvd n (by norm_num)
  have e1 : ((n : Int)).fdiv 86400 = ((n / 86400 : Nat) : Int) := by
    rw [Int.fdiv_eq_ediv _ (by norm_num)]; norm_cast
  have e2 : ((n : Int)).fmod 86400 = ((n % 86400 : Nat) : Int) := by
    rw [Int.fmod_eq_emod _ (by norm_num)]; norm_cast
  have e3 : (((n % 86400 : Nat) : Int)).fdiv 3600 = ((n % 86400 / 3600 : Nat) : Int) := by
    rw [Int.fdiv_eq_ediv _ (by norm_num)]; norm_cast
  have e4 : (((n % 86400 : Nat) : Int)).fmod 3600 = ((n % 3600 : Nat) : Int) := by
    rw [Int.fmod_eq_emod _ (by norm_num), ← m1]; norm_cast
  have e5 : (((n % 3600 : Nat) : Int)).fdiv 60 = ((n % 3600 / 60 : Nat) : Int) := by
    rw [Int.fdiv_eq_ediv _ (by norm_num)]; norm_cast
  have e6 : (((n % 3600 : Nat) : Int)).fmod 60 = ((n % 60 : Nat) : Int) := by
    rw [Int.fmod_eq_emod _ (by norm_num), ← m2]; norm_cast
  simp only [humanize_delta, humanizeCanonical, List.foldl_cons, List.foldl_nil,
    List.filterMap_cons, List.filterMap_nil, e1, e2, e3, e4, e5, e6,
    Int.fdiv_one, Int.fmod_one, tcast, ne_eq, Int.natCast_eq_zero]
  by_cases h1 : n / 86400 = 0 <;> by_cases h2 : n % 86400 / 3600 = 0 <;>
    by_cases h3 : n % 3600 / 60 = 0 <;> by_cases h4 : n % 60 = 0 <;>
    simp [h1, h2, h3, h4]

theorem humanize_delta_nonneg (d : Int) (h : 0 ≤ d) :
    humanize_delta d = humanizeCanonical d.toNat := by
  calc humanize_delta d = humanize_delta ((d.toNat : Nat) : Int) := by
        rw [Int.toNat_of_nonneg h]
  _ = humanizeCanonical d.toNat := humanize_delta_natCast d.toNat

theorem foldl_add_map (f : α → Nat) :
    ∀ (l : List α) (acc : Nat), l.foldl (fun a x => a + f x) acc = acc + (l.map f).sum := by
  intro l
  induction l with
  | nil => intro acc; simp
  | cons a t ih =>
    intro acc
    simp only [List.foldl_cons, List.map_cons, List.sum_cons, ih]
    omega

/-! ## Claim theorems -/

/-- Claim C1: evaluation of the fire handler at the failing scenario.  For a
repeating reminder (registry record and job data with `due_at = 100`,
interval 60) that fires at `now = 105` with successful delivery, the chat's
registry still holds the record with its original `due_at = 100` — not
`105 + 60` as the claim requires — both after one fire and after a second
fire at 171; the record does remain present, and a one-shot fire does remove
its record.  The code only rebinds `due_at` inside the job's own data dict,
which is never read again. -/
theorem claim1_fire_registry_eval :
    (send_reminder true 105 "1-5"
        ⟨[("1-5", ⟨none, "t", 100, some 60⟩)], [("1-5", ⟨1, none, "t", none, 100, some 60⟩)]⟩).jobs
      = [("1-5", ⟨none, "t", 100, some 60⟩)]
    ∧ (send_reminder true 171 "1-5" (send_reminder true 105 "1-5"
        ⟨[("1-5", ⟨none, "t", 100, some 60⟩)], [("1-5", ⟨1, none, "t", none, 100, some 60⟩)]⟩)).jobs
      = [("1-5", ⟨none, "t", 100, some 60⟩)]
    ∧ ((100 : Int) ≠ 105 + 60)
    ∧ (send_reminder true 105 "1-5"
        ⟨[("1-5", ⟨none, "t", 100, none⟩)], [("1-5", ⟨1, none, "t", none, 100, none⟩)]⟩).jobs
      = [] := by
  decide

/-- Claim C2 counterexample: when the delivery call fails (`deliverOk =
false`), a one-shot reminder is NOT removed from the registry — its record
is still found — whereas the same fire with successful delivery removes it.
This refutes the claim that the lifecycle transition completes on delivery
failure. -/
theorem claim2_counterexample :
    List.lookup "1-5" (send_reminder false 105 "1-5"
        ⟨[("1-5", ⟨none, "t", 100, none⟩)], [("1-5", ⟨1, none, "t", none, 100, none⟩)]⟩).jobs
      = some ⟨none, "t", 100, none⟩
    ∧ List.lookup "1-5" (send_reminder true 105 "1-5"
        ⟨[("1-5", ⟨none, "t", 100, none⟩)], [("1-5", ⟨1, none, "t", none, 100, none⟩)]⟩).jobs
      = none := by
  decide

/-- Claim C2 amended: the `await context.bot.send_message` call in
`send_reminder` is not guarded by any exception handler, so a delivery
failure aborts the handler before the lifecycle code: the state is entirely
unchanged — the one-shot record is not removed and the recurring job data's
due time is not advanced.  The lifecycle transition happens only on
successful delivery. -/
theorem claim2_amended_no_transition_on_failure (now : Int) (jobName : String) (st : BotState) :
    send_reminder false now jobName st = st := by
  unfold send_reminder
  cases List.lookup jobName st.armed <;> simp

/-- Claim C3 counterexample: two create operations in chat 1 that both read
the same wall clock millisecond 5 allocate the identical id `"1-5"`, and the
second registry insertion overwrites the first, so only the second record is
retrievable afterward. -/
theorem claim3_counterexample :
    mkJobId 1 5 = mkJobId 1 5
    ∧ (createReminder 1 5 ⟨none, "b", 200, none⟩
        ((createReminder 1 5 ⟨none, "a", 100, none⟩ []).2)).2
      = [("1-5", (⟨none, "b", 200, none⟩ : JobRecord))] := by
  constructor
  · rfl
  · decide

/-- Claim C3 amended: two create operations in the same chat whose
millisecond timestamps differ allocate distinct ids, and after both creates
each record is retrievable under its own id from any starting registry;
creates that share a millisecond collide as shown by the counterexample. -/
theorem claim3_amended_distinct_ms (c : Int) (t1 t2 : Nat) (r1 r2 : JobRecord)
    (d : List (String × JobRecord)) (h : t1 ≠ t2) :
    mkJobId c t1 ≠ mkJobId c t2
    ∧ List.lookup (mkJobId c t1)
        ((createReminder c t2 r2 ((createReminder c t1 r1 d).2)).2) = some r1
    ∧ List.lookup (mkJobId c t2)
        ((createReminder c t2 r2 ((createReminder c t1 r1 d).2)).2) = some r2 := by
  have hne : mkJobId c t1 ≠ mkJobId c t2 := fun he => h (mkJobId_inj_ms c he)
  refine ⟨hne, ?_, ?_⟩
  · show List.lookup (mkJobId c t1)
        (dictInsert (mkJobId c t2) r2 (dictInsert (mkJobId c t1) r1 d)) = some r1
    rw [lookup_dictInsert_other _ _ _ hne, lookup_dictInsert_self]
  · exact lookup_dictInsert_self _ _ _

/-- Claim C3 witness: the amended statement at chat 1, timestamps 5 and 6. -/
theorem claim3_witness :
    mkJobId 1 5 ≠ mkJobId 1 6
    ∧ List.lookup (mkJobId 1 5)
        ((createReminder 1 6 ⟨none, "b", 200, none⟩
          ((createReminder 1 5 ⟨none, "a", 100, none⟩ []).2)).2)
      = some ⟨none, "a", 100, none⟩
    ∧ List.lookup (mkJobId 1 6)
        ((createReminder 1 6 ⟨none, "b", 200, none⟩
          ((createReminder 1 5 ⟨none, "a", 100, none⟩ []).2)).2)
      = some ⟨none, "b", 200, none⟩ :=
  claim3_amended_distinct_ms 1 5 6 _ _ [] (by decide)

/-- Claim C7 counterexample: `/cancel All` in a chat whose registry holds the
single id `"1-9"` names an id (`"All"`) that is not present in the registry,
yet the operation does not report NotFound: it clears the registry and
disarms the job. -/
theorem claim7_counterexample :
    List.lookup "All" [("1-9", (⟨none, "t", 100, none⟩ : JobRecord))] = none
    ∧ cancel ["All"] [("1-9", ⟨none, "t", 100, none⟩)]
      = ([], CancelOutcome.cancelledAll, ["1-9"]) := by
  decide

/-- Claim C7 amended: for every cancel naming an id other than the reserved
keyword `all` (case-insensitive) that is not present in the chat's registry,
the operation reports NotFound, leaves the registry exactly as it was, and
disarms no timer. -/
theorem claim7_amended_notfound (id : String) (rest : List String)
    (jobs : List (String × JobRecord)) (hAll : pyLower id ≠ "all")
    (hAbsent : List.lookup id jobs = none) :
    cancel (id :: rest) jobs = (jobs, CancelOutcome.notFound, []) := by
  show cancelWithId id jobs = _
  unfold cancelWithId
  rw [if_neg hAll, hAbsent]

/-- Claim C7 witness: the amended statement at id `"1-9"` against a registry
holding only `"1-5"`. -/
theorem claim7_witness :
    cancel ["1-9"] [("1-5", (⟨none, "t", 100, none⟩ : JobRecord))]
      = ([("1-5", ⟨none, "t", 100, none⟩)], CancelOutcome.notFound, []) :=
  claim7_amended_notfound "1-9" [] _ (by decide) (by decide)

/-- Claim C8: a `/cancel` with no id argument in a chat with exactly one
reminder selects that reminder: the registry is emptied, its timer is
disarmed, and the confirmation names its id (no prompt).  The hypothesis
that the id does not lowercase to `"all"` holds for every id the program
allocates, as the second conjunct shows. -/
theorem claim8_cancel_singleton :
    (∀ (k : String) (r : JobRecord), pyLower k ≠ "all" →
        cancel [] [(k, r)]
          = ([], CancelOutcome.cancelled k (pyOrStr r.target "без адресата"), [k]))
    ∧ ∀ (c : Int) (t : Nat), pyLower (mkJobId c t) ≠ "all" := by
  constructor
  · intro k r hk
    show cancelWithId k [(k, r)] = _
    unfold cancelWithId
    rw [if_neg hk, List.lookup_cons_self]
    simp
  · exact mkJobId_lower_ne_all

/-- Claim C8 witness: the singleton cancel at id `"1-5"`. -/
theorem claim8_witness :
    cancel [] [("1-5", (⟨some "@b", "t", 100, none⟩ : JobRecord))]
      = ([], CancelOutcome.cancelled "1-5" "@b", ["1-5"]) :=
  claim8_cancel_singleton.1 "1-5" ⟨some "@b", "t", 100, none⟩ (by decide)

/-- Claim C9: `/cancel` with an argument equal to `all` case-insensitively in
a chat with at least one reminder disarms every job in the chat, empties the
registry, and a subsequent `/list` reports no active reminders. -/
theorem claim9_cancel_all (arg : String) (rest : List String)
    (jobs : List (String × JobRecord)) (now : Int)
    (hne : jobs ≠ []) (hall : pyLower arg = "all") :
    cancel (arg :: rest) jobs = ([], CancelOutcome.cancelledAll, jobs.map Prod.fst)
    ∧ list_reminders now (cancel (arg :: rest) jobs).1 = ListOutcome.noReminders := by
  have h1 : cancel (arg :: rest) jobs = ([], .cancelledAll, jobs.map Prod.fst) := by
    show cancelWithId arg jobs = _
    unfold cancelWithId
    rw [if_pos hall]
    cases jobs with
    | nil => exact absurd rfl hne
    | cons a t => rfl
  exact ⟨h1, by rw [h1]; rfl⟩

/-- Claim C9 witness: `/cancel ALL` on a one-entry registry. -/
theorem claim9_witness :
    cancel ["ALL"] [("1-5", (⟨none, "t", 100, none⟩ : JobRecord))]
      = ([], CancelOutcome.cancelledAll, ["1-5"])
    ∧ list_reminders 0
        (cancel ["ALL"] [("1-5", (⟨none, "t", 100, none⟩ : JobRecord))]).1
      = ListOutcome.noReminders :=
  claim9_cancel_all "ALL" [] _ 0 (by decide) (by decide)

/-- Claim C10: `/list` renders one line per registry entry in order, each
line's remaining time is the stored due time minus the current time clamped
below at zero (`reminderLineSpec` spells the clamp out and renders it as the
canonical non-negative string), and that clamped value is never negative. -/
theorem claim10_list_eta_clamped (now : Int) (jobs : List (String × JobRecord))
    (hne : jobs ≠ []) :
    list_reminders now jobs = ListOutcome.lines (jobs.map (fun p => reminderLine now p.1 p.2))
    ∧ (∀ (job_id : String) (r : JobRecord),
        reminderLine now job_id r = reminderLineSpec now job_id r)
    ∧ ∀ r : JobRecord, (0 : Int) ≤ max (r.due_at - now) 0 := by
  refine ⟨?_, ?_, fun r => le_max_right _ _⟩
  · cases jobs with
    | nil => exact absurd rfl hne
    | cons a t => rfl
  · intro id r
    have heq := humanize_delta_nonneg ((r.due_at - now) ⊔ 0) (le_max_right _ _)
    unfold reminderLine reminderLineSpec
    simp only [heq]

/-- Claim C10 witness: a one-entry listing with the due time in the past
(due 100, now 150) renders the clamped zero remaining time. -/
theorem claim10_witness :
    list_reminders 150 [("1-5", (⟨none, "t", 100, some 60⟩ : JobRecord))]
      = ListOutcome.lines [reminderLine 150 "1-5" ⟨none, "t", 100, some 60⟩]
    ∧ reminderLine 150 "1-5" ⟨none, "t", 100, some 60⟩
      = reminderLineSpec 150 "1-5" ⟨none, "t", 100, some 60⟩
    ∧ (0 : Int) ≤ max ((100 : Int) - 150) 0 := by
  have h := claim10_list_eta_clamped 150 [("1-5", ⟨none, "t", 100, some 60⟩)] (by decide)
  exact ⟨h.1, h.2.1 "1-5" _, h.2.2 ⟨none, "t", 100, some 60⟩⟩

/-- Claim C4: for a non-reply `/remind`, if the first token parses as a
duration or the token list begins a valid absolute datetime then no target
token is consumed and all tokens are time+text; otherwise the first token is
consumed as the explicit target label and the rest are time+text; and on
tokens `["10m", "hello"]` the result is target None, due time `now + 600`
seconds, text `"hello"`. -/
theorem claim4_target_disambiguation :
    (∀ (a : String) (rest : List String),
        ((parse_duration a).isSome ∨ (parse_datetime_spec (a :: rest)).isSome) →
        targetSplit (a :: rest) = some (none, a :: rest))
    ∧ (∀ (a b : String) (rest : List String),
        ¬((parse_duration a).isSome ∨ (parse_datetime_spec (a :: b :: rest)).isSome) →
        targetSplit (a :: b :: rest) = some (some a, b :: rest))
    ∧ (∀ now : Int, remindParse false "" ["10m", "hello"] now
        = RemindResult.ok none false (now + 600) 600 none "hello") := by
  refine ⟨?_, ?_, ?_⟩
  · intro a rest h
    simp only [targetSplit]
    rw [if_pos h]
  · intro a b rest h
    simp only [targetSplit]
    rw [if_neg h]
  · intro now
    rfl

/-- Claim C4 witness: the split at `["10m", "hello"]` (no target consumed),
at `["@bob", "10m"]` (target consumed), and the full parse at `now = 0`. -/
theorem claim4_witness :
    targetSplit ["10m", "hello"] = some (none, ["10m", "hello"])
    ∧ targetSplit ["@bob", "10m"] = some (some "@bob", ["10m"])
    ∧ remindParse false "" ["10m", "hello"] 0
      = RemindResult.ok none false 600 600 none "hello" := by
  refine ⟨claim4_target_disambiguation.1 "10m" ["hello"] ?_,
    claim4_target_disambiguation.2.1 "@bob" "10m" [] ?_,
    by have := claim4_target_disambiguation.2.2 0; simpa using this⟩
  · decide
  · decide

/-- Claim C5: `parse_duration` returns exactly the arithmetic sum over all
matched `(integer, unit)` pairs of value times unit seconds, and returns
`None` precisely when no pair matches or the summed total is zero; units are
matched case-insensitively, e.g. `"1H20M"`. -/
theorem claim5_parse_duration_sum :
    (∀ s : String,
        parse_duration s =
          if durationMatches s = [] ∨ durationTotal (durationMatches s) = 0 then none
          else some ((durationTotal (durationMatches s) : Nat) : Int))
    ∧ parse_duration "1H20M" = some 4800
    ∧ parse_duration "0h0m" = none
    ∧ parse_duration "no pairs" = none := by
  refine ⟨?_, by decide, by decide, by decide⟩
  intro s
  simp only [parse_duration, durationTotal]
  rw [foldl_add_map (fun p => digitsToNat p.1.data * unitSeconds p.2) (durationMatches s) 0,
    Nat.zero_add]
  by_cases h1 : durationMatches s = []
  · simp [h1]
  · by_cases h2 : ((durationMatches s).map
        (fun p => digitsToNat p.1.data * unitSeconds p.2)).sum = 0
    · simp [h1, h2]
    · simp [h1, h2, Nat.pos_of_ne_zero h2]

/-- Claim C6: `humanize_delta` of any non-negative whole-second duration is
the canonical rendering the spec describes (largest-to-smallest non-zero
components, `"0s"` for zero), so `humanize_delta` after `parse_duration` is
independent of component order; in particular `"1h20m"` and `"20m1h"` both
render as `"1h 20m"`. -/
theorem claim6_humanize_canonical :
    (∀ n : Nat, humanize_delta (n : Int) = humanizeCanonical n)
    ∧ (parse_duration "1h20m").map humanize_delta = some "1h 20m"
    ∧ (parse_duration "20m1h").map humanize_delta = some "1h 20m"
    ∧ ∀ x y : String, parse_duration x = parse_duration y →
        (parse_duration x).map humanize_delta = (parse_duration y).map humanize_delta := by
  refine ⟨humanize_delta_natCast, by decide, by decide, fun x y h => by rw [h]⟩

/-- Claim C6 witness: the same-total strings `"1h20m"` and `"20m1h"` humanize
identically. -/
theorem claim6_witness :
    (parse_duration "1h20m").map humanize_delta
      = (parse_duration "20m1h").map humanize_delta :=
  claim6_humanize_canonical.2.2.2 "1h20m" "20m1h" (by decide)
